import Mathlib

/-!
Verification of the howl streaming client (`howl/client/howl_client.py`).

The development shallowly embeds the audio-callback pipeline of `HowlClient`:
the overlap buffer manipulated by `_on_audio`, the PCM normalizer
`_normalize_audio`, listener notification, and the `start` routine with its
device-selection loop.  Bytes are modelled as `Nat` values (< 256 in intended
use, though no result depends on that), frames as byte lists, and the float
arithmetic of the normalizer as exact rational arithmetic.
-/

/-- A PCM frame (`in_data` in the Python source): a byte string. -/
abbrev Frame := List Nat

/-- Constant `self._audio_buf_len = 16` from `HowlClient.__init__`. -/
def audio_buf_len : Nat := 16

/-- Constant `self._audio_float_size = 32767` from `HowlClient.__init__`. -/
def audio_float_size : Nat := 32767

/-- Reinterpret two bytes as one signed 16-bit little-endian integer, the way
`np.frombuffer(audio_data, dtype=np.int16)` reads consecutive byte pairs. -/
def toInt16LE (lo hi : Nat) : Int :=
  let u : Nat := lo % 256 + 256 * (hi % 256)
  if u < 32768 then (u : Int) else (u : Int) - 65536

/-- Decode a byte string into the `int16` sample list produced by
`np.frombuffer(audio_data, dtype=np.int16)`. -/
def bytesToInt16 : List Nat → List Int
  | lo :: hi :: rest => toInt16LE lo hi :: bytesToInt16 rest
  | _ => []

/-- Embedding of `HowlClient._normalize_audio`: reinterpret the bytes as int16 samples,
cast to float and divide by `self._audio_float_size` (32767); floats are
modelled exactly as rationals. -/
def normalize_audio (audio_data : List Nat) : List ℚ :=
  (bytesToInt16 audio_data).map (fun s => (s : ℚ) / (audio_float_size : ℚ))

/-- The external inference engine, as used by `_on_audio`: `infer` may either
return a boolean detection result or raise (modelled by `Except.error`), and
`sequence` is the token-index sequence readable after a positive detection. -/
structure Engine where
  infer : List ℚ → Except String Bool
  sequence : List Nat

/-- The inference context: exposes the vocabulary. -/
structure InfContext where
  vocab : List String

/-- The mutable state of a `HowlClient` that `_on_audio` touches. -/
structure ClientState where
  listeners : List Nat
  chunk_size : Nat
  audio_buf : List Frame
  last_data : Frame

/-- PyAudio stream-callback flags; `_on_audio` only ever uses `paContinue`. -/
inductive PaFlag
  | paContinue
  | paComplete
  | paAbort
deriving DecidableEq

/-- The observable outcome of one `_on_audio` call: the mutated client state,
the emitted window (as the list of frames whose concatenation is the
`audio_data` byte string), the listener invocations performed (listener id
paired with the token sequence passed to it, in call order), and the value
returned to PyAudio (or the propagated exception). -/
structure CallbackOut where
  state : ClientState
  emitted : Option (List Frame)
  notified : List (Nat × List Nat)
  result : Except String (Frame × PaFlag)

/-- Embedding of `HowlClient._on_audio`, statement by statement:
set `last_data`, append to `_audio_buf`, early-return unless the buffer
length equals `_audio_buf_len`; otherwise join the buffer, slice off the two
oldest frames, normalize, run inference (whose exception, if any, propagates
after the buffer was already mutated), and on a positive result invoke every
listener with `engine.sequence`.  The vocabulary lookup building the logged
phrase has no observable effect and is not modelled. -/
def on_audio (eng : Engine) (st : ClientState) (in_data : Frame) : CallbackOut :=
  let st1 : ClientState :=
    { st with last_data := in_data, audio_buf := st.audio_buf ++ [in_data] }
  if st1.audio_buf.length ≠ audio_buf_len then
    ⟨st1, none, [], Except.ok (in_data, PaFlag.paContinue)⟩
  else
    let window := st1.audio_buf
    let st2 : ClientState := { st1 with audio_buf := st1.audio_buf.drop 2 }
    match eng.infer (normalize_audio window.flatten) with
    | Except.error e => ⟨st2, some window, [], Except.error e⟩
    | Except.ok true =>
        ⟨st2, some window, st.listeners.map (fun l => (l, eng.sequence)),
          Except.ok (in_data, PaFlag.paContinue)⟩
    | Except.ok false => ⟨st2, some window, [], Except.ok (in_data, PaFlag.paContinue)⟩

/-- The overlap-buffer fragment of `_on_audio` (lines 65-70 of the source):
append the frame; when the buffer length hits `_audio_buf_len` emit the full
buffer as a window and drop the two oldest frames, else emit nothing. -/
def bufPush (buf : List Frame) (f : Frame) : List Frame × Option (List Frame) :=
  let buf1 := buf ++ [f]
  if buf1.length ≠ audio_buf_len then (buf1, none)
  else (buf1.drop 2, some buf1)

/-- Iterate `bufPush` from a given buffer/emission-trace pair. -/
def runBufFrom (init : List Frame × List (Option (List Frame))) (frames : List Frame) :
    List Frame × List (Option (List Frame)) :=
  frames.foldl (fun acc f => ((bufPush acc.1 f).1, acc.2 ++ [(bufPush acc.1 f).2])) init

/-- Push a whole frame sequence through an initially empty overlap buffer,
returning the final buffer and the per-push emission trace. -/
def runBuf (frames : List Frame) : List Frame × List (Option (List Frame)) :=
  runBufFrom ([], []) frames

/-- The emission the code produces on the `(i+1)`-th push of `frames`
(0-indexed position `i`): a window exactly on even pushes numbered ≥ 16,
containing the 16 most recent frames, oldest first. -/
def emissionAt (frames : List Frame) (i : Nat) : Option (List Frame) :=
  if 16 ≤ i + 1 ∧ (i + 1) % 2 = 0 then
    some ((frames.take (i + 1)).drop (i + 1 - 16))
  else none

/-- The buffer contents after pushing all of `frames` through an initially
empty buffer. -/
def specBuf (frames : List Frame) : List Frame :=
  if frames.length < 16 then frames
  else frames.drop (frames.length - (14 + frames.length % 2))

/-- PyAudio sample formats; `start` always opens with `paInt16`. -/
inductive AudioFormat
  | paInt16
  | paFloat32
deriving DecidableEq

/-- The keyword arguments `HowlClient.start` passes to `pyaudio.open`. -/
structure StreamConfig where
  format : AudioFormat
  channels : Nat
  rate : Nat
  input : Bool
  input_device_index : Nat
  frames_per_buffer : Nat
deriving DecidableEq

/-- The device-I/O operations `start` can perform, recorded as a trace. -/
inductive DeviceAction
  | get_device_count
  | get_device_info (idx : Nat)
  | open_stream (cfg : StreamConfig)
  | start_stream
deriving DecidableEq

/-- Message of the `AttributeError` raised when the engine is missing. -/
def msg_no_engine : String :=
  "Please provide an InferenceEngine or initialize using from_pretrained."

/-- Message of the `AttributeError` raised when the context is missing. -/
def msg_no_context : String :=
  "Please provide an InferenceContext or initialize using from_pretrained."

/-- The message used by the raising test engine. -/
def msg_infer_failure : String := "inference failed"

/-- The device-selection loop of `HowlClient.start`: walk the enumerated
device names from index `base`, returning the index of the first device
named "pulse" (0 when none is found — the initial `chosen_idx`) together
with the list of indices whose info was queried. -/
def device_scan : List String → Nat → Nat × List Nat
  | [], _ => (0, [])
  | n :: rest, idx =>
      if n = "pulse" then (idx, [idx])
      else ((device_scan rest (idx + 1)).1, idx :: (device_scan rest (idx + 1)).2)

/-- The input-device index `HowlClient.start` settles on. -/
def chosen_idx (devices : List String) : Nat := (device_scan devices 0).1

/-- Embedding of `HowlClient.start`: raise (`AttributeError`, modelled as `Except.error`)
when the engine or the context is missing — before any device I/O — and
otherwise enumerate devices, pick the input device, and open and start the
stream with 16-bit PCM, 1 channel, 16000 Hz and `chunk_size` frames per
buffer.  The second component is the trace of device operations performed. -/
def start (engine : Option Engine) (ctx : Option InfContext) (devices : List String)
    (chunk_size : Nat) : Except String StreamConfig × List DeviceAction :=
  match engine with
  | none =>
      (Except.error msg_no_engine, [])
  | some _ =>
      match ctx with
      | none =>
          (Except.error msg_no_context, [])
      | some _ =>
          let cfg : StreamConfig :=
            ⟨AudioFormat.paInt16, 1, 16000, true, chosen_idx devices, chunk_size⟩
          (Except.ok cfg,
            DeviceAction.get_device_count ::
              ((device_scan devices 0).2.map DeviceAction.get_device_info ++
                [DeviceAction.open_stream cfg, DeviceAction.start_stream]))

/-- An engine that always reports a positive detection. -/
def engT : Engine := ⟨fun _ => Except.ok true, [3, 5]⟩

/-- An engine whose inference always raises. -/
def engE : Engine := ⟨fun _ => Except.error msg_infer_failure, []⟩

/-- A concrete inference context. -/
def ctx0 : InfContext := ⟨["hey", "fire", "fox"]⟩

/-- A client state with two listeners and a buffer one frame short of full. -/
def st15 : ClientState := ⟨[1, 2], 500, List.replicate 15 [0], [0]⟩

/-- 18 pairwise distinct frames. -/
def framesC4 : List Frame := (List.range 18).map (fun n => [n])

/-- The window emitted at the 16th push of `framesC4`. -/
def w1C4 : List Frame := (List.range 16).map (fun n => [n])

/-- The window emitted at the 18th push of `framesC4`. -/
def w2C4 : List Frame := ((List.range 18).map (fun n => [n])).drop 2

lemma specBuf_lt (l : List Frame) (h : l.length < 16) : specBuf l = l := by
  unfold specBuf
  rw [if_pos h]

lemma specBuf_ge (l : List Frame) (h : 16 ≤ l.length) :
    specBuf l = l.drop (l.length - (14 + l.length % 2)) := by
  unfold specBuf
  rw [if_neg (by omega)]

lemma bufPush_small (buf : List Frame) (f : Frame) (h : buf.length + 1 ≠ 16) :
    bufPush buf f = (buf ++ [f], none) := by
  simp only [bufPush, audio_buf_len, List.length_append, List.length_cons,
    List.length_nil, Nat.zero_add]
  rw [if_pos h]

lemma bufPush_full (buf : List Frame) (f : Frame) (h : buf.length + 1 = 16) :
    bufPush buf f = ((buf ++ [f]).drop 2, some (buf ++ [f])) := by
  simp only [bufPush, audio_buf_len, List.length_append, List.length_cons,
    List.length_nil, Nat.zero_add]
  rw [if_neg (by omega)]

lemma runBuf_append (l : List Frame) (a : Frame) :
    runBuf (l ++ [a]) =
      ((bufPush (runBuf l).1 a).1, (runBuf l).2 ++ [(bufPush (runBuf l).1 a).2]) := by
  simp [runBuf, runBufFrom, List.foldl_append]

lemma emissionAt_append (l : List Frame) (a : Frame) (i : Nat) (h : i < l.length) :
    emissionAt (l ++ [a]) i = emissionAt l i := by
  unfold emissionAt
  rw [List.take_append_of_le_length (by omega)]

/-- Master characterization of the overlap buffer driven from empty: the final
buffer is `specBuf frames` and the emission at each push position follows
`emissionAt`. -/
lemma runBuf_spec (frames : List Frame) :
    (runBuf frames).1 = specBuf frames ∧
    (runBuf frames).2 = (List.range frames.length).map (emissionAt frames) := by
  induction frames using List.reverseRecOn with
  | nil => exact ⟨rfl, rfl⟩
  | append_singleton l a ih =>
    obtain ⟨ih1, ih2⟩ := ih
    rw [runBuf_append, ih1, ih2]
    have hlast : (List.range (l.length + 1)).map (emissionAt (l ++ [a])) =
        (List.range l.length).map (emissionAt l) ++ [emissionAt (l ++ [a]) l.length] := by
      have hr : List.range (l.length + 1) = List.range l.length ++ [l.length] := by
        simpa using List.range_succ l.length
      rw [hr, List.map_append]
      exact congrArg (· ++ [emissionAt (l ++ [a]) l.length])
        (List.map_congr_left fun i hi => emissionAt_append l a i (List.mem_range.mp hi))
    have hlen : (l ++ [a]).length = l.length + 1 := by simp
    rcases Nat.lt_or_ge l.length 15 with h1 | h1
    · -- fewer than 16 frames after the push: pure accumulation, no emission
      rw [specBuf_lt l (by omega), bufPush_small l a (by omega)]
      refine ⟨?_, ?_⟩
      · rw [specBuf_lt (l ++ [a]) (by simp; omega)]
      · have hrhs : emissionAt (l ++ [a]) l.length = none := by
          unfold emissionAt
          rw [if_neg (by omega)]
        rw [hlen, hlast, hrhs]
    · rcases Nat.lt_or_ge l.length 16 with h2 | h2
      · -- exactly the 16th push: first emission, retire two frames
        have h15 : l.length = 15 := by omega
        rw [specBuf_lt l (by omega), bufPush_full l a (by omega)]
        refine ⟨?_, ?_⟩
        · rw [specBuf_ge (l ++ [a]) (by simp; omega), hlen, h15]
        · have hrhs : emissionAt (l ++ [a]) l.length = some (l ++ [a]) := by
            unfold emissionAt
            rw [if_pos (by omega)]
            rw [List.take_of_length_le (by simp)]
            rw [h15]
            simp
          rw [hlen, hlast, hrhs]
      · -- saturated regime
        rcases Nat.even_or_odd l.length with he | ho
        · -- even length, 14-frame state: accumulate to 15, no emission
          have hm : l.length % 2 = 0 := Nat.even_iff.mp he
          rw [specBuf_ge l h2, hm]
          rw [bufPush_small _ a (by rw [List.length_drop]; omega)]
          refine ⟨?_, ?_⟩
          · rw [specBuf_ge (l ++ [a]) (by simp; omega), hlen]
            have hm1 : (l.length + 1) % 2 = 1 := by omega
            rw [hm1]
            rw [List.drop_append_of_le_length (by omega)]
            have harith : l.length - (14 + 0) = l.length + 1 - (14 + 1) := by omega
            rw [harith]
          · have hrhs : emissionAt (l ++ [a]) l.length = none := by
              unfold emissionAt
              rw [if_neg (by omega)]
            rw [hlen, hlast, hrhs]
        · -- odd length, 15-frame state: 16th slot filled, emit and retire two
          have hm : l.length % 2 = 1 := Nat.odd_iff.mp ho
          rw [specBuf_ge l h2, hm]
          rw [bufPush_full _ a (by rw [List.length_drop]; omega)]
          refine ⟨?_, ?_⟩
          · rw [List.drop_append_of_le_length (by rw [List.length_drop]; omega)]
            rw [List.drop_drop]
            rw [specBuf_ge (l ++ [a]) (by simp; omega), hlen]
            have hm1 : (l.length + 1) % 2 = 0 := by omega
            rw [hm1]
            rw [List.drop_append_of_le_length (by omega)]
            have harith : l.length - (14 + 1) + 2 = l.length + 1 - (14 + 0) := by omega
            rw [harith]
          · have hrhs : emissionAt (l ++ [a]) l.length =
                some (l.drop (l.length - (14 + 1)) ++ [a]) := by
              unfold emissionAt
              rw [if_pos (by omega)]
              rw [List.take_of_length_le (by simp)]
              rw [List.drop_append_of_le_length (by omega)]
              have harith : l.length + 1 - 16 = l.length - (14 + 1) := by omega
              rw [harith]
            rw [hlen, hlast, hrhs]

lemma specBuf_length (l : List Frame) :
    (specBuf l).length = if l.length < 16 then l.length else 14 + l.length % 2 := by
  by_cases h : l.length < 16
  · rw [specBuf_lt l h, if_pos h]
  · rw [specBuf_ge l (by omega), if_neg h, List.length_drop]
    omega

lemma runBuf_emissions_length (frames : List Frame) :
    ((runBuf frames).2).length = frames.length := by
  rw [(runBuf_spec frames).2]
  simp

lemma runBuf_emission (frames : List Frame) (i : Nat) (h : i < frames.length) :
    ((runBuf frames).2)[i]? = some (emissionAt frames i) := by
  rw [(runBuf_spec frames).2, List.getElem?_map,
    List.getElem?_eq_getElem (by simpa using h)]
  simp

lemma runBuf_emission_some (frames : List Frame) (i : Nat) (w : List Frame)
    (h : ((runBuf frames).2)[i]? = some (some w)) :
    i < frames.length ∧ 16 ≤ i + 1 ∧ (i + 1) % 2 = 0 ∧
      w = (frames.take (i + 1)).drop (i + 1 - 16) := by
  have hi : i < frames.length := by
    by_contra hni
    rw [List.getElem?_eq_none (by rw [runBuf_emissions_length]; omega)] at h
    exact Option.noConfusion h
  rw [runBuf_emission frames i hi] at h
  unfold emissionAt at h
  by_cases hc : 16 ≤ i + 1 ∧ (i + 1) % 2 = 0
  · rw [if_pos hc] at h
    exact ⟨hi, hc.1, hc.2, (Option.some_inj.mp (Option.some_inj.mp h)).symm⟩
  · rw [if_neg hc] at h
    exact absurd (Option.some_inj.mp h) (by simp)

/-- Claim C1 (amended): driven from an empty buffer, no window is emitted
while fewer than 16 frames have been pushed; a window is emitted exactly at
the 16th push and at every second push thereafter (pushes 16, 18, 20, ...),
while the odd-numbered pushes in between emit nothing. -/
theorem overlap_buffer_emission_schedule (frames : List Frame) (i : Nat)
    (h : i < frames.length) :
    (∃ w, ((runBuf frames).2)[i]? = some (some w)) ↔
      (16 ≤ i + 1 ∧ (i + 1) % 2 = 0) := by
  rw [runBuf_emission frames i h]
  unfold emissionAt
  by_cases hc : 16 ≤ i + 1 ∧ (i + 1) % 2 = 0
  · rw [if_pos hc]
    simp [hc]
  · rw [if_neg hc]
    constructor
    · rintro ⟨w, hw⟩
      exact absurd (Option.some_inj.mp hw) (by simp)
    · intro h'
      exact absurd h' hc

/-- Claim C1, witness: at the 16th push (position 15) of a 16-frame sequence
a window is emitted. -/
theorem overlap_buffer_emission_schedule_witness :
    (∃ w, ((runBuf (List.replicate 16 ([0] : Frame))).2)[15]? = some (some w)) ↔
      (16 ≤ 15 + 1 ∧ (15 + 1) % 2 = 0) :=
  overlap_buffer_emission_schedule (List.replicate 16 [0]) 15 (by decide)

/-- Claim C1, counterexample to the claim as stated: in a 17-push sequence
(≥ 16 frames total) the 16th push emits a window but the 17th push — a push
after the N-th — emits nothing, refuting "on every single push thereafter". -/
theorem overlap_buffer_emission_not_every_push :
    (List.replicate 17 ([0] : Frame)).length = 17 ∧
    ((runBuf (List.replicate 17 ([0] : Frame))).2)[15]? =
      some (some (List.replicate 16 [0])) ∧
    ((runBuf (List.replicate 17 ([0] : Frame))).2)[16]? = some none := by
  decide

/-- Claim C2 (amended): once the buffer has received at least 16 frames, the
buffer length after a completed push is 14 (= N−2) after even-numbered pushes
and 15 (= N−1) after odd-numbered pushes — not N−1/N as claimed. -/
theorem overlap_buffer_saturated_length (frames : List Frame)
    (h : 16 ≤ frames.length) :
    (runBuf frames).1.length = 14 + frames.length % 2 := by
  rw [(runBuf_spec frames).1, specBuf_length, if_neg (by omega)]

/-- Claim C2, witness: after exactly 16 pushes the buffer holds 14 frames. -/
theorem overlap_buffer_saturated_length_witness :
    16 ≤ (List.replicate 16 ([0] : Frame)).length ∧
    (runBuf (List.replicate 16 ([0] : Frame))).1.length = 14 + 16 % 2 :=
  ⟨by decide, overlap_buffer_saturated_length (List.replicate 16 [0]) (by decide)⟩

/-- Claim C2, counterexample: after the 16th push (buffer saturated) the
buffer length is 14, which is neither N−1 = 15 nor N = 16; and the following
17th push grows the buffer to 15, so a saturated push does not always shrink
the buffer by one net frame. -/
theorem overlap_buffer_length_not_n_minus_one :
    (runBuf (List.replicate 16 ([0] : Frame))).1.length = 14 ∧
    ¬((runBuf (List.replicate 16 ([0] : Frame))).1.length = 15 ∨
      (runBuf (List.replicate 16 ([0] : Frame))).1.length = 16) ∧
    (runBuf (List.replicate 17 ([0] : Frame))).1.length = 15 := by
  decide

/-- Claim C4: any two consecutively emitted windows are 16 frames long and
share exactly 14 = N−2 frames: the later window drops the two oldest frames
of the earlier one and appends the two newly arrived frames. -/
theorem consecutive_windows_overlap (frames : List Frame) (i j : Nat)
    (w1 w2 : List Frame)
    (h1 : ((runBuf frames).2)[i]? = some (some w1))
    (h2 : ((runBuf frames).2)[j]? = some (some w2))
    (hij : i < j)
    (hbetween : ∀ m, i < m → m < j → ((runBuf frames).2)[m]? = some none) :
    w1.length = 16 ∧ w2.length = 16 ∧ w2.take 14 = w1.drop 2 ∧
    w2 = w1.drop 2 ++ (frames.drop (i + 1)).take 2 := by
  obtain ⟨hi, hi16, hieven, hw1⟩ := runBuf_emission_some frames i w1 h1
  obtain ⟨hj, hj16, hjeven, hw2⟩ := runBuf_emission_some frames j w2 h2
  have hji : j = i + 2 := by
    by_contra hne
    have h3 := hbetween (i + 2) (by omega) (by omega)
    rw [runBuf_emission frames (i + 2) (by omega)] at h3
    unfold emissionAt at h3
    rw [if_pos (by omega)] at h3
    exact absurd (Option.some_inj.mp h3) (by simp)
  subst hji
  have hlen1 : w1.length = 16 := by
    rw [hw1, List.length_drop, List.length_take]
    omega
  have hlen2 : w2.length = 16 := by
    rw [hw2, List.length_drop, List.length_take]
    omega
  have htake : frames.take (i + 2 + 1) = frames.take (i + 1) ++ (frames.drop (i + 1)).take 2 := by
    have h3 : i + 2 + 1 = i + 1 + 2 := by omega
    rw [h3, List.take_add]
  have hd : w2 = w1.drop 2 ++ (frames.drop (i + 1)).take 2 := by
    rw [hw2, htake,
      List.drop_append_of_le_length (by rw [List.length_take]; omega),
      hw1, List.drop_drop]
    have harith : i + 2 + 1 - 16 = i + 1 - 16 + 2 := by omega
    rw [harith]
  refine ⟨hlen1, hlen2, ?_, hd⟩
  rw [hd, List.take_append_of_le_length (by rw [List.length_drop, hlen1]),
    List.take_of_length_le (by rw [List.length_drop, hlen1])]

/-- Claim C4, witness: for 18 distinct frames the consecutive emissions at
pushes 16 and 18 overlap in exactly 14 frames. -/
theorem consecutive_windows_overlap_witness :
    w1C4.length = 16 ∧ w2C4.length = 16 ∧ w2C4.take 14 = w1C4.drop 2 ∧
    w2C4 = w1C4.drop 2 ++ (framesC4.drop 16).take 2 :=
  consecutive_windows_overlap framesC4 15 17 w1C4 w2C4 (by decide) (by decide)
    (by decide)
    (fun m hm1 hm2 => by
      have hm : m = 16 := by omega
      subst hm
      decide)

/-- Claim C5: every emitted window is exactly the concatenation content of
the buffer at emission time — the frame that just arrived appended to the
frames retained from earlier pushes — equivalently the 16 most recently
pushed frames, oldest first; retired frames never reappear. -/
theorem emitted_window_is_buffer (frames : List Frame) (i : Nat)
    (w : List Frame)
    (h : ((runBuf frames).2)[i]? = some (some w)) :
    w.length = 16 ∧
    w = (frames.take (i + 1)).drop (i + 1 - 16) ∧
    ∃ f, frames[i]? = some f ∧ w = (runBuf (frames.take i)).1 ++ [f] := by
  obtain ⟨hi, h16, heven, hw⟩ := runBuf_emission_some frames i w h
  have hf : frames[i]? = some frames[i] := List.getElem?_eq_getElem hi
  have htake1 : frames.take (i + 1) = frames.take i ++ [frames[i]] := by
    rw [List.take_succ, hf]
    rfl
  have hlenw : w.length = 16 := by
    rw [hw, List.length_drop, List.length_take]
    omega
  refine ⟨hlenw, hw, frames[i], hf, ?_⟩
  rw [(runBuf_spec (frames.take i)).1]
  have hlti : (frames.take i).length = i := by
    rw [List.length_take]
    omega
  by_cases hc : i < 16
  · have h15 : i = 15 := by omega
    rw [specBuf_lt _ (by rw [hlti]; omega), hw, ← htake1, h15]
    simp
  · rw [specBuf_ge _ (by rw [hlti]; omega), hlti]
    have hmod : i % 2 = 1 := by omega
    rw [hmod, hw, htake1,
      List.drop_append_of_le_length (by rw [List.length_take]; omega)]
    have harith : i + 1 - 16 = i - (14 + 1) := by omega
    rw [harith]

/-- Claim C5, witness: the window emitted at the 16th push of 16 identical
frames is those 16 frames, which are the 15 buffered frames plus the frame
that just arrived. -/
theorem emitted_window_is_buffer_witness :
    (List.replicate 16 ([0] : Frame)).length = 16 ∧
    List.replicate 16 ([0] : Frame) =
      ((List.replicate 16 ([0] : Frame)).take (15 + 1)).drop (15 + 1 - 16) ∧
    ∃ f, (List.replicate 16 ([0] : Frame))[15]? = some f ∧
      List.replicate 16 ([0] : Frame) =
        (runBuf ((List.replicate 16 ([0] : Frame)).take 15)).1 ++ [f] :=
  emitted_window_is_buffer (List.replicate 16 [0]) 15 (List.replicate 16 [0])
    (by decide)

lemma normalize_audio_cons2 (lo hi : Nat) (rest : List Nat) :
    normalize_audio (lo :: hi :: rest) =
      ((toInt16LE lo hi : ℚ) / (audio_float_size : ℚ)) :: normalize_audio rest := rfl

lemma toInt16LE_max : toInt16LE 255 127 = 32767 := by decide

lemma toInt16LE_min : toInt16LE 0 128 = -32768 := by decide

/-- Claim C3: `normalize` is a deterministic pure function of its input
bytes; it reinterprets them as signed 16-bit little-endian integers and
divides by 32767, so samples of int16 value 32767 (bytes `FF 7F`) map to
exactly 1 and samples of value -32768 (bytes `00 80`) map to exactly
-32768/32767. -/
theorem normalize_audio_spec :
    (∀ b1 b2 : List Nat, b1 = b2 → normalize_audio b1 = normalize_audio b2) ∧
    (∀ n : Nat, normalize_audio ((List.replicate n ([255, 127] : List Nat)).flatten) =
      List.replicate n 1) ∧
    (∀ n : Nat, normalize_audio ((List.replicate n ([0, 128] : List Nat)).flatten) =
      List.replicate n (-32768 / 32767 : ℚ)) := by
  refine ⟨fun b1 b2 h => by rw [h], ?_, ?_⟩
  · intro n
    induction n with
    | zero => rfl
    | succ k ih =>
      rw [List.replicate_succ, List.flatten_cons]
      simp only [List.cons_append, List.nil_append]
      rw [normalize_audio_cons2, ih, toInt16LE_max, List.replicate_succ]
      norm_num [audio_float_size]
  · intro n
    induction n with
    | zero => rfl
    | succ k ih =>
      rw [List.replicate_succ, List.flatten_cons]
      simp only [List.cons_append, List.nil_append]
      rw [normalize_audio_cons2, ih, toInt16LE_min, List.replicate_succ]
      norm_num [audio_float_size]

/-- Claim C3, witness: a one-sample window of bytes `FF 7F` normalizes to
exactly 1, and one of `00 80` to exactly -32768/32767. -/
theorem normalize_audio_spec_witness :
    normalize_audio [255, 127] = normalize_audio [255, 127] ∧
    normalize_audio ((List.replicate 1 ([255, 127] : List Nat)).flatten) =
      List.replicate 1 1 ∧
    normalize_audio ((List.replicate 1 ([0, 128] : List Nat)).flatten) =
      List.replicate 1 (-32768 / 32767 : ℚ) :=
  ⟨normalize_audio_spec.1 [255, 127] [255, 127] rfl,
    normalize_audio_spec.2.1 1, normalize_audio_spec.2.2 1⟩

lemma on_audio_small (eng : Engine) (st : ClientState) (f : Frame)
    (h : st.audio_buf.length + 1 ≠ audio_buf_len) :
    on_audio eng st f =
      ⟨{ st with last_data := f, audio_buf := st.audio_buf ++ [f] }, none, [],
        Except.ok (f, PaFlag.paContinue)⟩ := by
  simp only [on_audio]
  rw [if_pos (by
    simp only [List.length_append, List.length_cons, List.length_nil, Nat.zero_add, ne_eq]
    exact h)]

lemma on_audio_raise (eng : Engine) (st : ClientState) (f : Frame) (msg : String)
    (hlen : st.audio_buf.length + 1 = audio_buf_len)
    (hinf : eng.infer (normalize_audio ((st.audio_buf ++ [f]).flatten)) =
      Except.error msg) :
    on_audio eng st f =
      ⟨{ st with last_data := f, audio_buf := (st.audio_buf ++ [f]).drop 2 },
        some (st.audio_buf ++ [f]), [], Except.error msg⟩ := by
  simp only [on_audio]
  rw [if_neg (by
    simp only [List.length_append, List.length_cons, List.length_nil, Nat.zero_add,
      ne_eq, not_not]
    exact hlen)]
  rw [hinf]

lemma on_audio_detect (eng : Engine) (st : ClientState) (f : Frame)
    (hlen : st.audio_buf.length + 1 = audio_buf_len)
    (hinf : eng.infer (normalize_audio ((st.audio_buf ++ [f]).flatten)) =
      Except.ok true) :
    on_audio eng st f =
      ⟨{ st with last_data := f, audio_buf := (st.audio_buf ++ [f]).drop 2 },
        some (st.audio_buf ++ [f]), st.listeners.map (fun l => (l, eng.sequence)),
        Except.ok (f, PaFlag.paContinue)⟩ := by
  simp only [on_audio]
  rw [if_neg (by
    simp only [List.length_append, List.length_cons, List.length_nil, Nat.zero_add,
      ne_eq, not_not]
    exact hlen)]
  rw [hinf]

lemma on_audio_nodetect (eng : Engine) (st : ClientState) (f : Frame)
    (hlen : st.audio_buf.length + 1 = audio_buf_len)
    (hinf : eng.infer (normalize_audio ((st.audio_buf ++ [f]).flatten)) =
      Except.ok false) :
    on_audio eng st f =
      ⟨{ st with last_data := f, audio_buf := (st.audio_buf ++ [f]).drop 2 },
        some (st.audio_buf ++ [f]), [], Except.ok (f, PaFlag.paContinue)⟩ := by
  simp only [on_audio]
  rw [if_neg (by
    simp only [List.length_append, List.length_cons, List.length_nil, Nat.zero_add,
      ne_eq, not_not]
    exact hlen)]
  rw [hinf]

/-- Claim C6: when a push completes the window and the engine reports a
positive detection, every registered listener is invoked exactly once, in
registration order, each receiving the token-index sequence of the engine; on a
negative detection — and likewise on a non-emitting push — no listener is
invoked. -/
theorem notify_listeners_on_detection (eng : Engine) (st : ClientState) (f : Frame) :
    (st.audio_buf.length + 1 = audio_buf_len →
      eng.infer (normalize_audio ((st.audio_buf ++ [f]).flatten)) = Except.ok true →
      (on_audio eng st f).notified = st.listeners.map (fun l => (l, eng.sequence))) ∧
    (st.audio_buf.length + 1 ≠ audio_buf_len → (on_audio eng st f).notified = []) ∧
    (eng.infer (normalize_audio ((st.audio_buf ++ [f]).flatten)) = Except.ok false →
      (on_audio eng st f).notified = []) := by
  refine ⟨fun hlen hinf => by rw [on_audio_detect eng st f hlen hinf],
    fun hlen => by rw [on_audio_small eng st f hlen], fun hinf => ?_⟩
  by_cases hlen : st.audio_buf.length + 1 = audio_buf_len
  · rw [on_audio_nodetect eng st f hlen hinf]
  · rw [on_audio_small eng st f hlen]

/-- Claim C6, witness: with a 15-frame buffer and an always-detecting engine,
one push notifies the two registered listeners, in order, with the sequence of the engine. -/
theorem notify_listeners_on_detection_witness :
    (on_audio engT st15 [9]).notified = st15.listeners.map (fun l => (l, engT.sequence)) :=
  (notify_listeners_on_detection engT st15 [9]).1 (by decide) rfl

/-- Claim C9: on a window-emitting push whose inference raises, the exception
propagates, but the client state was already mutated beforehand: the two
oldest frames are gone from the buffer, the last-seen-frame cache holds the
new frame, and no listener was notified — the pre-call buffer is not
restored. -/
theorem buffer_mutated_before_inference (eng : Engine) (st : ClientState)
    (f : Frame) (msg : String)
    (hlen : st.audio_buf.length + 1 = audio_buf_len)
    (hinf : eng.infer (normalize_audio ((st.audio_buf ++ [f]).flatten)) =
      Except.error msg) :
    (on_audio eng st f).result = Except.error msg ∧
    (on_audio eng st f).state.audio_buf = (st.audio_buf ++ [f]).drop 2 ∧
    (on_audio eng st f).state.last_data = f ∧
    (on_audio eng st f).notified = [] := by
  rw [on_audio_raise eng st f msg hlen hinf]
  exact ⟨rfl, rfl, rfl, rfl⟩

/-- Claim C9, witness: a raising engine on a full window leaves the buffer
already shortened to 14 frames and the exception propagated. -/
theorem buffer_mutated_before_inference_witness :
    (on_audio engE st15 [9]).result = Except.error msg_infer_failure ∧
    (on_audio engE st15 [9]).state.audio_buf = (st15.audio_buf ++ [[9]]).drop 2 ∧
    (on_audio engE st15 [9]).state.last_data = [9] ∧
    (on_audio engE st15 [9]).notified = [] :=
  buffer_mutated_before_inference engE st15 [9] msg_infer_failure (by decide) rfl

/-- Claim C10: whenever the audio callback returns normally, its return value
is the pair of the incoming frame and `paContinue` — it never signals the
audio subsystem to stop or abort the stream. -/
theorem callback_returns_continue (eng : Engine) (st : ClientState) (f : Frame)
    (out : Frame × PaFlag)
    (h : (on_audio eng st f).result = Except.ok out) :
    out = (f, PaFlag.paContinue) := by
  by_cases hlen : st.audio_buf.length + 1 = audio_buf_len
  · cases hinf : eng.infer (normalize_audio ((st.audio_buf ++ [f]).flatten)) with
    | error e =>
        rw [on_audio_raise eng st f e hlen hinf] at h
        exact absurd h (by simp)
    | ok b =>
        cases b with
        | false =>
            rw [on_audio_nodetect eng st f hlen hinf] at h
            exact (Except.ok.inj h).symm
        | true =>
            rw [on_audio_detect eng st f hlen hinf] at h
            exact (Except.ok.inj h).symm
  · rw [on_audio_small eng st f hlen] at h
    exact (Except.ok.inj h).symm

/-- Claim C10, witness: a concrete completed callback returned the incoming
frame paired with `paContinue`. -/
theorem callback_returns_continue_witness :
    (([7], PaFlag.paContinue) : Frame × PaFlag) = ([7], PaFlag.paContinue) :=
  callback_returns_continue engT st15 [7] ([7], PaFlag.paContinue) rfl

example : (runBuf (List.replicate 15 [0])).2.all (· = none) := by decide
example : (runBuf (List.replicate 16 [0])).1.length = 14 := by decide
example : (runBuf (List.replicate 17 [0])).1.length = 15 := by decide
example : ((runBuf (List.replicate 17 [0])).2)[16]? = some none := by decide
example : ((runBuf (List.replicate 16 [0])).2)[15]? =
    some (some (List.replicate 16 [0])) := by decide
example : normalize_audio [255, 127, 255, 127] = [1, 1] := by
  norm_num [normalize_audio, bytesToInt16, toInt16LE, audio_float_size]
example : normalize_audio [0, 128] = [-32768 / 32767] := by
  norm_num [normalize_audio, bytesToInt16, toInt16LE, audio_float_size]

lemma device_scan_spec (names : List String) (base : Nat) :
    ("pulse" ∉ names ∧ (device_scan names base).1 = 0) ∨
    (∃ k, names[k]? = some ("pulse") ∧ (∀ j, j < k → names[j]? ≠ some ("pulse")) ∧
      (device_scan names base).1 = base + k) := by
  induction names generalizing base with
  | nil => exact Or.inl ⟨by simp, rfl⟩
  | cons n rest ih =>
      by_cases hn : n = "pulse"
      · right
        refine ⟨0, by simp [hn], fun j hj => absurd hj (Nat.not_lt_zero j), ?_⟩
        simp [device_scan, hn]
      · rcases ih (base + 1) with ⟨hmem, hval⟩ | ⟨k, hk, hlt, hval⟩
        · left
          constructor
          · simp only [List.mem_cons]
            rintro (h | h)
            · exact hn h.symm
            · exact hmem h
          · simp [device_scan, hn, hval]
        · right
          refine ⟨k + 1, by simpa using hk, ?_, ?_⟩
          · intro j hj
            cases j with
            | zero => simpa using hn
            | succ j' => simpa using hlt j' (by omega)
          · have hstep : (device_scan (n :: rest) base).1 =
                (device_scan rest (base + 1)).1 := by
              simp [device_scan, hn]
            rw [hstep, hval]
            omega

/-- Claim C7: `start()` raises when the inference engine or the inference
context is absent, performing no device I/O at all in that case; when both
are present it succeeds and the performed I/O includes opening the stream. -/
theorem start_requires_configuration (engine : Option Engine) (ctx : Option InfContext)
    (devices : List String) (cs : Nat) :
    ((engine = none ∨ ctx = none) →
      (∃ msg, (start engine ctx devices cs).1 = Except.error msg) ∧
      (start engine ctx devices cs).2 = []) ∧
    (engine ≠ none → ctx ≠ none →
      ∃ cfg, (start engine ctx devices cs).1 = Except.ok cfg ∧
        DeviceAction.open_stream cfg ∈ (start engine ctx devices cs).2) := by
  cases engine with
  | none => exact ⟨fun _ => ⟨⟨_, rfl⟩, rfl⟩, fun he _ => absurd rfl he⟩
  | some e =>
      cases ctx with
      | none => exact ⟨fun _ => ⟨⟨_, rfl⟩, rfl⟩, fun _ hc => absurd rfl hc⟩
      | some c =>
          refine ⟨fun h => ?_, fun _ _ => ⟨_, rfl, ?_⟩⟩
          · rcases h with h | h
            · exact absurd h (by simp)
            · exact absurd h (by simp)
          · simp [start]

/-- Claim C7, witness: with no engine configured, `start` fails and performs
no device I/O. -/
theorem start_requires_configuration_witness :
    (∃ msg, (start none (some ctx0) ["hw0"] 500).1 = Except.error msg) ∧
    (start none (some ctx0) ["hw0"] 500).2 = [] :=
  (start_requires_configuration none (some ctx0) ["hw0"] 500).1 (Or.inl rfl)

/-- Claim C8: when configured, `start` opens the stream with 16-bit signed
PCM, 1 channel, 16000 Hz and `chunk_size` frames per callback, on the first
enumerated device named "pulse" when one exists and on device index 0
otherwise. -/
theorem start_device_selection (e : Engine) (c : InfContext) (devices : List String)
    (cs : Nat) :
    ∃ cfg : StreamConfig,
      (start (some e) (some c) devices cs).1 = Except.ok cfg ∧
      cfg.format = AudioFormat.paInt16 ∧
      cfg.channels = 1 ∧
      cfg.rate = 16000 ∧
      cfg.input = true ∧
      cfg.frames_per_buffer = cs ∧
      cfg.input_device_index = chosen_idx devices ∧
      (("pulse" ∉ devices ∧ cfg.input_device_index = 0) ∨
        (devices[cfg.input_device_index]? = some ("pulse") ∧
          ∀ j, j < cfg.input_device_index → devices[j]? ≠ some ("pulse"))) := by
  refine ⟨_, rfl, rfl, rfl, rfl, rfl, rfl, rfl, ?_⟩
  rcases device_scan_spec devices 0 with ⟨hmem, hval⟩ | ⟨k, hk, hlt, hval⟩
  · exact Or.inl ⟨hmem, hval⟩
  · have hidx : chosen_idx devices = k := by
      unfold chosen_idx
      rw [hval]
      omega
    right
    constructor
    · rw [show (chosen_idx devices : Nat) = k from hidx]
      exact hk
    · intro j hj
      rw [hidx] at hj
      exact hlt j hj

/-- Claim C8, witness: with devices ["hw0", "pulse"], the stream opens on
device index 1 with the fixed 16-bit/1-channel/16000 Hz configuration. -/
theorem start_device_selection_witness :
    ∃ cfg : StreamConfig,
      (start (some engT) (some ctx0) ["hw0", "pulse"] 500).1 = Except.ok cfg ∧
      cfg.format = AudioFormat.paInt16 ∧
      cfg.channels = 1 ∧
      cfg.rate = 16000 ∧
      cfg.input = true ∧
      cfg.frames_per_buffer = 500 ∧
      cfg.input_device_index = chosen_idx ["hw0", "pulse"] ∧
      (("pulse" ∉ (["hw0", "pulse"] : List String) ∧ cfg.input_device_index = 0) ∨
        ((["hw0", "pulse"] : List String)[cfg.input_device_index]? = some ("pulse") ∧
          ∀ j, j < cfg.input_device_index →
            (["hw0", "pulse"] : List String)[j]? ≠ some ("pulse"))) :=
  start_device_selection engT ctx0 ["hw0", "pulse"] 500
